import Mathlib

/-!
Verification of the Memory Consistency & Retrieval Engine.

Shallow embedding of the repository's `memory_system` package:
  * `models.py`    — `Memory`, `Memory.to_dict`, `Memory.from_dict`
  * `database.py`  — `DatabaseManager` (SQLite tables `memories` and
    `memory_relationships`, modelled as lists of rows)
  * `vector_db.py` — `VectorDatabase` (a Chroma collection, modelled as a
    list of entries; the collection's distance metric is Chroma's default
    squared-L2, computed exactly over rationals)
  * `openai_client.py` — the decision / extraction layer.  The external
    OpenAI calls are modelled as oracle arguments: `resp : Option RawDecision`
    is the parsed JSON decision (`none` = the API call failed or the reply
    was not parsable as JSON, i.e. the `except` branch of
    `_decide_memory_action`), and `embOf : Str → Option (List Rat)` is
    `generate_embedding` (`none` = failure).
  * `core.py`     — `MemorySystem` orchestration.

Python strings are modelled as `List Char` (`Str`), floats as exact
rationals, timestamps as naturals ordered like the ISO strings the code
stores.  Backend I/O exceptions, which every store method catches and turns
into a `False` return, are modelled by explicit `exn : Bool` arguments:
`exn = true` means the underlying call raised and the method returned
`False` without mutating anything (the SQLite connection rolls back, and a
Chroma failure leaves the collection unchanged).
-/

abbrev Str := List Char

/-- Python `needle` is a prefix of `hay` (helper for substring test). -/
def prefOf : Str → Str → Bool
  | [], _ => true
  | _ :: _, [] => false
  | c :: cs, d :: ds => decide (c = d) && prefOf cs ds

/-- Python `needle in hay` — contiguous substring occurrence. -/
def occursIn (needle hay : Str) : Bool :=
  match hay with
  | [] => decide (needle = [])
  | _ :: t => prefOf needle hay || occursIn needle t

/-- Python `s.lower()` (character-wise). -/
def toLowerL (s : Str) : Str := s.map Char.toLower

/-- Python `s.split(sep)` with a single-character separator and no maxsplit. -/
def pySplit (sep : Char) : Str → List Str
  | [] => [[]]
  | c :: rest =>
      let r := pySplit sep rest
      if c = sep then [] :: r
      else
        match r with
        | [] => [[c]]
        | t :: ts => (c :: t) :: ts

/-- Python `sep.join(parts)` with a single-character separator. -/
def pyJoin (sep : Char) : List Str → Str
  | [] => []
  | [t] => t
  | t :: ts => t ++ sep :: pyJoin sep ts

/-- Exact rational addition (a kernel-reducible spelling of `Rat` addition,
used so that concrete runs of the model evaluate by `decide`). -/
def ratAdd (a b : Rat) : Rat :=
  mkRat (a.num * b.den + b.num * a.den) (a.den * b.den)

/-- Exact rational subtraction (kernel-reducible spelling). -/
def ratSub (a b : Rat) : Rat :=
  mkRat (a.num * b.den - b.num * a.den) (a.den * b.den)

/-- Exact rational multiplication (kernel-reducible spelling). -/
def ratMul (a b : Rat) : Rat := mkRat (a.num * b.num) (a.den * b.den)

/-- Floor of a rational (kernel-reducible spelling). -/
def ratFloor (q : Rat) : Int := Int.fdiv q.num q.den

/-- Sum of a list of rationals. -/
def ratSum : List Rat → Rat
  | [] => 0
  | x :: xs => ratAdd x (ratSum xs)

/-- Python `round(x, 3)`: round half to even at the third decimal. -/
def pyRound3 (x : Rat) : Rat :=
  let y := ratMul x 1000
  let f : Int := ratFloor y
  let frac := ratSub y (mkRat f 1)
  let r : Int :=
    if frac > mkRat 1 2 then f + 1
    else if frac < mkRat 1 2 then f
    else if f % 2 = 0 then f else f + 1
  mkRat r 1000

/-- Chroma's default distance metric ("l2": squared euclidean distance). -/
def sqL2 (a b : List Rat) : Rat :=
  ratSum (List.zipWith (fun x y => ratMul (ratSub x y) (ratSub x y)) a b)

/-- `models.Memory` — the in-memory dataclass. -/
structure Memory where
  id : Str
  user_id : Str
  content : Str
  category : Str
  confidence : Rat
  timestamp : Nat
  conversation_id : Str
  tags : List Str
  is_active : Bool := true
deriving DecidableEq, Repr

/-- A row of the SQLite `memories` table; also the serialized dict shape
produced by `Memory.to_dict` (tags joined into one comma-separated text). -/
structure MemoryRow where
  id : Str
  user_id : Str
  content : Str
  category : Str
  confidence : Rat
  timestamp : Nat
  conversation_id : Str
  tags : Str
  is_active : Bool
deriving DecidableEq, Repr

/-- A row of the `memory_relationships` audit table (one per retirement). -/
structure RelRow where
  memory_id : Str
  relationship_type : Str
  reason : Str
deriving DecidableEq, Repr

/-- `Memory.to_dict` — serialization used by `DatabaseManager.save_memory`. -/
def Memory.to_dict (m : Memory) : MemoryRow :=
  { id := m.id, user_id := m.user_id, content := m.content,
    category := m.category, confidence := m.confidence,
    timestamp := m.timestamp, conversation_id := m.conversation_id,
    tags := pyJoin ',' m.tags, is_active := m.is_active }

/-- `Memory.from_dict` — `tags.split(',') if tags else []`. -/
def Memory.from_dict (r : MemoryRow) : Memory :=
  { id := r.id, user_id := r.user_id, content := r.content,
    category := r.category, confidence := r.confidence,
    timestamp := r.timestamp, conversation_id := r.conversation_id,
    tags := if r.tags = [] then [] else pySplit ',' r.tags,
    is_active := r.is_active }

/-- `database.DatabaseManager` — state of the SQLite store. -/
structure DatabaseManager where
  rows : List MemoryRow
  rels : List RelRow
deriving DecidableEq, Repr

/-- `DatabaseManager.save_memory` — `INSERT OR REPLACE` keyed by id;
an exception rolls back and returns `False`. -/
def DatabaseManager.save_memory (db : DatabaseManager) (m : Memory)
    (exn : Bool) : DatabaseManager × Bool :=
  if exn then (db, false)
  else
    ({ rows := m.to_dict :: db.rows.filter (fun r => decide (r.id ≠ m.id)),
       rels := db.rels }, true)

/-- `DatabaseManager.get_memory` — `WHERE id = ? AND user_id = ? AND is_active = 1`. -/
def DatabaseManager.get_memory (db : DatabaseManager) (memory_id user_id : Str) :
    Option Memory :=
  (db.rows.find? (fun r =>
      decide (r.id = memory_id ∧ r.user_id = user_id ∧ r.is_active = true))).map
    Memory.from_dict

/-- Stable insertion keeping the list ordered by `timestamp` descending. -/
def insertTsDesc (r : MemoryRow) : List MemoryRow → List MemoryRow
  | [] => [r]
  | x :: xs => if r.timestamp ≤ x.timestamp then x :: insertTsDesc r xs
               else r :: x :: xs

/-- `ORDER BY timestamp DESC` (ties resolved deterministically). -/
def sortTsDesc : List MemoryRow → List MemoryRow
  | [] => []
  | r :: rs => insertTsDesc r (sortTsDesc rs)

/-- `DatabaseManager.get_user_memories` — active rows of the owner, optional
category filter, newest first, `LIMIT` only added when `limit` is truthy. -/
def DatabaseManager.get_user_memories (db : DatabaseManager) (user_id : Str)
    (category : Option Str) (limit : Option Nat) : List Memory :=
  let base := db.rows.filter (fun r =>
    decide (r.user_id = user_id ∧ r.is_active = true))
  let base :=
    match category with
    | some c => base.filter (fun r => decide (r.category = c))
    | none => base
  let sorted := sortTsDesc base
  let limited :=
    match limit with
    | some n => if n = 0 then sorted else sorted.take n
    | none => sorted
  limited.map Memory.from_dict

/-- `DatabaseManager.delete_memory` — soft delete.  The `UPDATE ... WHERE
id = ? AND user_id = ?` does not test `is_active`, and SQLite's rowcount
counts every row matched by the WHERE clause, so a matched row (active or
not) triggers the audit insert and a `True` return. -/
def DatabaseManager.delete_memory (db : DatabaseManager)
    (memory_id user_id reason : Str) (exn : Bool) : DatabaseManager × Bool :=
  if exn then (db, false)
  else
    let matched := db.rows.countP (fun r =>
      decide (r.id = memory_id ∧ r.user_id = user_id))
    if 0 < matched then
      ({ rows := db.rows.map (fun r =>
           if decide (r.id = memory_id ∧ r.user_id = user_id) then
             { r with is_active := false }
           else r),
         rels := db.rels ++ [⟨memory_id, "deleted".data, reason⟩] }, true)
    else (db, false)

/-- Metadata dict stored with each Chroma entry (`VectorDatabase.add_memory`). -/
structure VecMeta where
  user_id : Str
  category : Str
  confidence : Rat
  timestamp : Nat
  conversation_id : Str
  tags : Str
deriving DecidableEq, Repr

/-- One entry of the Chroma collection. -/
structure VecEntry where
  id : Str
  embedding : List Rat
  document : Str
  metadata : VecMeta
deriving DecidableEq, Repr

/-- `vector_db.VectorDatabase` — state of the Chroma collection. -/
structure VectorDatabase where
  entries : List VecEntry
deriving DecidableEq, Repr

/-- The entry written for a memory by `VectorDatabase.add_memory`
(`documents=[memory.content]`, metadata dict as in the source). -/
def vecEntryOf (m : Memory) (embedding : List Rat) : VecEntry :=
  { id := m.id, embedding := embedding, document := m.content,
    metadata := { user_id := m.user_id, category := m.category,
                  confidence := m.confidence, timestamp := m.timestamp,
                  conversation_id := m.conversation_id,
                  tags := pyJoin ',' m.tags } }

/-- `VectorDatabase.add_memory` — `collection.add`; an existing id is left
unchanged (Chroma warns and skips duplicates), an exception returns `False`. -/
def VectorDatabase.add_memory (v : VectorDatabase) (m : Memory)
    (embedding : List Rat) (exn : Bool) : VectorDatabase × Bool :=
  if exn then (v, false)
  else if v.entries.any (fun e => decide (e.id = m.id)) then (v, true)
  else ({ entries := v.entries ++ [vecEntryOf m embedding] }, true)

/-- One element of the result list built by `VectorDatabase.search_memories`. -/
structure Hit where
  id : Str
  document : Str
  metadata : VecMeta
  similarity : Rat
deriving DecidableEq, Repr

/-- Stable insertion keeping (distance, entry) pairs ordered by ascending
distance. -/
def insertDistAsc (p : Rat × VecEntry) :
    List (Rat × VecEntry) → List (Rat × VecEntry)
  | [] => [p]
  | q :: qs => if q.1 ≤ p.1 then q :: insertDistAsc p qs else p :: q :: qs

/-- Chroma query ordering: nearest first. -/
def sortDistAsc : List (Rat × VecEntry) → List (Rat × VecEntry)
  | [] => []
  | p :: ps => insertDistAsc p (sortDistAsc ps)

/-- `VectorDatabase.search_memories` — `collection.query` with the owner as a
hard pre-filter and `n_results = limit`, then the Python loop converting
distance to similarity (`1 - distance`) and dropping hits below
`min_similarity` (default `0.0` at the only call site in `core.py`). -/
def VectorDatabase.search_memories (v : VectorDatabase)
    (query_embedding : List Rat) (user_id : Str) (limit : Nat)
    (min_similarity : Rat) : List Hit :=
  let owned := v.entries.filter (fun e => decide (e.metadata.user_id = user_id))
  let sorted := sortDistAsc (owned.map (fun e =>
    (sqL2 query_embedding e.embedding, e)))
  (sorted.take limit).filterMap (fun p =>
    let similarity := ratSub 1 p.1
    if min_similarity ≤ similarity then
      some { id := p.2.id, document := p.2.document,
             metadata := p.2.metadata, similarity := pyRound3 similarity }
    else none)

/-- `VectorDatabase.delete_memory` — owner-checked `collection.get` then
`collection.delete`; missing or foreign ids return `False`. -/
def VectorDatabase.delete_memory (v : VectorDatabase)
    (memory_id user_id : Str) (exn : Bool) : VectorDatabase × Bool :=
  if exn then (v, false)
  else if v.entries.any (fun e =>
      decide (e.id = memory_id ∧ e.metadata.user_id = user_id)) then
    ({ entries := v.entries.filter (fun e => decide (e.id ≠ memory_id)) }, true)
  else (v, false)

/-- The parsed `new_memory` JSON object of a decision (keys may be absent). -/
structure RawNewMemory where
  content : Option Str
  category : Option Str
  confidence : Option Rat
  tags : Option (List Str)
deriving DecidableEq, Repr

/-- The parsed JSON decision returned by the LLM in
`OpenAIClient._decide_memory_action` (keys may be absent). -/
structure RawDecision where
  action : Option Str
  memory_to_replace : Option Str
  new_memory : Option RawNewMemory
deriving DecidableEq, Repr

/-- `OpenAIClient._decide_memory_action`.  `resp = none` models the `except`
branch (API failure or a reply not parsable as JSON): the synthetic
low-confidence ADD is returned.  A successfully parsed decision is returned
as is, however malformed. -/
def OpenAIClient.decide_memory_action (text : Str) (resp : Option RawDecision) :
    RawDecision :=
  match resp with
  | some d => d
  | none =>
      { action := some ("ADD".data),
        memory_to_replace := none,
        new_memory := some
          { content := some ("User mentioned: ".data ++ text),
            category := some ("other".data),
            confidence := some (mkRat 1 2),
            tags := some ["fallback".data] } }

/-- The dict produced by `OpenAIClient.extract_memories_from_text`: the
`new_memory` payload plus the private `_action` / `_memory_to_replace`
keys added on the UPDATE branch. -/
structure CandidateMeta where
  data : RawNewMemory
  action : Option Str
  memory_to_replace : Str
deriving DecidableEq, Repr

/-- `OpenAIClient.extract_memories_from_text`.  A missing `action` or
`new_memory` key raises a `KeyError` that the function's own `except`
turns into `[]`, and an unknown action also yields `[]`. -/
def OpenAIClient.extract_memories_from_text (text : Str)
    (resp : Option RawDecision) : List CandidateMeta :=
  let d := OpenAIClient.decide_memory_action text resp
  match d.action with
  | none => []
  | some a =>
      if a = "IGNORE".data then []
      else if a = "UPDATE".data then
        match d.new_memory with
        | none => []
        | some nm =>
            [{ data := nm, action := some ("UPDATE".data),
               memory_to_replace := d.memory_to_replace.getD [] }]
      else if a = "ADD".data then
        match d.new_memory with
        | none => []
        | some nm => [{ data := nm, action := none, memory_to_replace := [] }]
      else []

/-- `core.MemorySystem` — the two store states. -/
structure MemorySystem where
  db_manager : DatabaseManager
  vector_db : VectorDatabase
deriving DecidableEq, Repr

/-- `MemorySystem._get_recent_memories_for_context` — content of the
owner's most recent active records (default `limit=5`); only fed to the
external decision step. -/
def MemorySystem.get_recent_memories_for_context (sys : MemorySystem)
    (user_id : Str) (limit : Nat) : List Str :=
  (sys.db_manager.get_user_memories user_id none (some limit)).map Memory.content

/-- `MemorySystem._create_memory_from_data` — only a missing/empty content
aborts; category, confidence and tags are taken verbatim with defaults
`other` / `0.8` / `[]` for absent keys.  `new_id`/`now` model `uuid4()` and
`datetime.now()`. -/
def MemorySystem.create_memory_from_data (d : RawNewMemory)
    (user_id conversation_id new_id : Str) (now : Nat) : Option Memory :=
  match d.content with
  | none => none
  | some c =>
      if c = [] then none
      else some
        { id := new_id, user_id := user_id, content := c,
          category := d.category.getD ("other".data),
          confidence := d.confidence.getD (mkRat 4 5),
          timestamp := now, conversation_id := conversation_id,
          tags := d.tags.getD [], is_active := true }

/-- `MemorySystem._save_memory` — embed (failure or a falsy empty vector
returns `False` with no mutation), then write SQLite, then write Chroma
unconditionally; report success only if both writes succeeded. -/
def MemorySystem.save_memory (sys : MemorySystem) (m : Memory)
    (embOf : Str → Option (List Rat)) (sqlExn vecExn : Bool) :
    MemorySystem × Bool :=
  match embOf m.content with
  | none => (sys, false)
  | some emb =>
      if emb = [] then (sys, false)
      else
        let saved := sys.db_manager.save_memory m sqlExn
        let added := sys.vector_db.add_memory m emb vecExn
        ({ db_manager := saved.1, vector_db := added.1 }, saved.2 && added.2)

/-- Bidirectional case-insensitive containment used by
`_delete_conflicting_memory` to resolve the UPDATE target. -/
def matchesHint (hint : Str) (m : Memory) : Bool :=
  occursIn (toLowerL hint) (toLowerL m.content)
    || occursIn (toLowerL m.content) (toLowerL hint)

/-- `MemorySystem._delete_conflicting_memory` — scans the owner's 20
most-recent active records for the first containment match and retires it in
both stores (results only logged, never propagated). -/
def MemorySystem.delete_conflicting_memory (sys : MemorySystem)
    (user_id hint : Str) (sqlExn vecExn : Bool) : MemorySystem :=
  let user_memories := sys.db_manager.get_user_memories user_id none (some 20)
  match user_memories.find? (matchesHint hint) with
  | none => sys
  | some m =>
      { db_manager := (sys.db_manager.delete_memory m.id user_id
          ("Replaced by new information".data) sqlExn).1,
        vector_db := (sys.vector_db.delete_memory m.id user_id vecExn).1 }

/-- The `for memory_data in memory_data_list` loop of
`MemorySystem.process_message`: validate, save, count successes.
`ids` supplies one fresh `uuid4()` per candidate. -/
def MemorySystem.process_loop (sys : MemorySystem)
    (cands : List CandidateMeta) (user_id conversation_id : Str)
    (ids : List Str) (now : Nat) (embOf : Str → Option (List Rat))
    (sqlExn vecExn : Bool) : MemorySystem × Nat :=
  match cands, ids with
  | [], _ => (sys, 0)
  | _ :: _, [] => (sys, 0)
  | c :: cs, i :: rest =>
      match MemorySystem.create_memory_from_data c.data user_id
          conversation_id i now with
      | none =>
          MemorySystem.process_loop sys cs user_id conversation_id rest now
            embOf sqlExn vecExn
      | some m =>
          let saved := MemorySystem.save_memory sys m embOf sqlExn vecExn
          let rec2 := MemorySystem.process_loop saved.1 cs user_id
            conversation_id rest now embOf sqlExn vecExn
          (rec2.1, if saved.2 then rec2.2 + 1 else rec2.2)

/-- `MemorySystem.process_message`.  The recent-memory context is consumed by
the external decision step whose parsed outcome is the oracle `resp`.  If the
first candidate carries `_action = UPDATE` with a non-empty
`_memory_to_replace`, the conflicting old record is retired *before* any
validation or embedding; then each candidate is validated, embedded and
saved.  Returns the new state and `memories_extracted`. -/
def MemorySystem.process_message (sys : MemorySystem) (user_id text conv : Str)
    (resp : Option RawDecision) (ids : List Str) (now : Nat)
    (embOf : Str → Option (List Rat))
    (dSqlExn dVecExn sSqlExn sVecExn : Bool) : MemorySystem × Nat :=
  let memory_data_list := OpenAIClient.extract_memories_from_text text resp
  let sys1 :=
    match memory_data_list with
    | [] => sys
    | md :: _ =>
        if md.action = some ("UPDATE".data) ∧ md.memory_to_replace ≠ [] then
          MemorySystem.delete_conflicting_memory sys user_id
            md.memory_to_replace dSqlExn dVecExn
        else sys
  MemorySystem.process_loop sys1 memory_data_list user_id conv ids now embOf
    sSqlExn sVecExn

/-- Result of `MemorySystem.search_memories` relevant to correctness: the
success flag and the hydrated `(record, similarity)` list (the synthesized
response is produced by the external LU and never affects this set). -/
structure SearchOut where
  success : Bool
  memories : List (Memory × Rat)
deriving DecidableEq, Repr

/-- `MemorySystem.search_memories` — embed the query (a failed or falsy
empty embedding aborts), query Chroma owner-scoped, hydrate each hit from
SQLite dropping unhydratable ones, keep the index ordering. -/
def MemorySystem.search_memories (sys : MemorySystem) (user_id query : Str)
    (limit : Nat) (embOf : Str → Option (List Rat)) : SearchOut :=
  match embOf query with
  | none => { success := false, memories := [] }
  | some qe =>
      if qe = [] then { success := false, memories := [] }
      else
        let vector_results := sys.vector_db.search_memories qe user_id limit 0
        let memories := vector_results.filterMap (fun r =>
          (sys.db_manager.get_memory r.id user_id).map (fun m =>
            (m, r.similarity)))
        { success := true, memories := memories }

/-- `MemorySystem.delete_memory_by_content` — search with `limit=3`; no hit
(or failed search) returns failure without mutation; otherwise retire the
top hit in SQLite then Chroma and report success only if both succeeded. -/
def MemorySystem.delete_memory_by_content (sys : MemorySystem)
    (user_id content_to_delete reason : Str)
    (embOf : Str → Option (List Rat)) (sqlExn vecExn : Bool) :
    MemorySystem × Bool :=
  let search_result := sys.search_memories user_id content_to_delete 3 embOf
  match search_result.success, search_result.memories with
  | false, _ => (sys, false)
  | true, [] => (sys, false)
  | true, (m, _) :: _ =>
      ({ db_manager := (sys.db_manager.delete_memory m.id user_id reason
            sqlExn).1,
         vector_db := (sys.vector_db.delete_memory m.id user_id vecExn).1 },
       (sys.db_manager.delete_memory m.id user_id reason sqlExn).2 &&
         (sys.vector_db.delete_memory m.id user_id vecExn).2)

/-! ## Helper lemmas -/

theorem pySplit_no_sep (sep : Char) (t : Str) (h : sep ∉ t) :
    pySplit sep t = [t] := by
  induction t with
  | nil => rfl
  | cons c t' ih =>
      have hc : ¬(c = sep) := by
        rintro rfl; exact h (List.mem_cons_self _ _)
      have h' : sep ∉ t' := fun hm => h (List.mem_cons_of_mem _ hm)
      simp [pySplit, hc, ih h']

theorem pySplit_append_sep (sep : Char) (t s : Str) (h : sep ∉ t) :
    pySplit sep (t ++ sep :: s) = t :: pySplit sep s := by
  induction t with
  | nil => simp [pySplit]
  | cons c t' ih =>
      have hc : ¬(c = sep) := by
        rintro rfl; exact h (List.mem_cons_self _ _)
      have h' : sep ∉ t' := fun hm => h (List.mem_cons_of_mem _ hm)
      simp [pySplit, hc, ih h']

theorem pyJoin_pySplit (sep : Char) (ts : List Str) (h0 : ts ≠ [])
    (h : ∀ t ∈ ts, sep ∉ t) : pySplit sep (pyJoin sep ts) = ts := by
  induction ts with
  | nil => exact absurd rfl h0
  | cons t ts ih =>
      cases ts with
      | nil => simpa [pyJoin] using pySplit_no_sep sep t (h t (by simp))
      | cons t2 rest =>
          have hj : pyJoin sep (t :: t2 :: rest)
              = t ++ sep :: pyJoin sep (t2 :: rest) := rfl
          rw [hj, pySplit_append_sep sep t _ (h t (by simp))]
          rw [ih (by simp) (fun x hx => h x (by simp [hx]))]

theorem from_dict_to_dict (m : Memory) (h : ∀ t ∈ m.tags, ',' ∉ t)
    (h2 : m.tags ≠ [[]]) : Memory.from_dict m.to_dict = m := by
  cases m with
  | mk id uid content category confidence ts conv tags act =>
      simp only [Memory.to_dict, Memory.from_dict, Memory.mk.injEq, true_and]
      constructor
      · cases tags with
        | nil => simp [pyJoin]
        | cons t rest =>
            cases rest with
            | nil =>
                have ht : t ≠ [] := by
                  intro hteq; exact h2 (by simp [hteq])
                simp only [pyJoin, if_neg ht]
                exact pySplit_no_sep ',' t (h t (by simp))
            | cons t2 r2 =>
                have hne : pyJoin ',' (t :: t2 :: r2) ≠ [] := by
                  show t ++ ',' :: pyJoin ',' (t2 :: r2) ≠ []
                  cases t <;> simp
                rw [if_neg hne]
                exact pyJoin_pySplit ',' _ (by simp) h
      · trivial

/-! ## C6 — StructuredStore round trip -/

/-- C6 (amended): for every valid active memory whose tags survive the
comma-joined serialization (no tag contains a comma and the tag list is not
the single empty string), `save` followed by `get(id, owner)` returns the
memory field-for-field. -/
theorem c6_round_trip (db : DatabaseManager) (m : Memory)
    (hact : m.is_active = true) (hcomma : ∀ t ∈ m.tags, ',' ∉ t)
    (hsing : m.tags ≠ [[]]) :
    (db.save_memory m false).1.get_memory m.id m.user_id = some m := by
  have hp : (fun r => decide (r.id = m.id ∧ r.user_id = m.user_id ∧
      r.is_active = true)) m.to_dict = true := by
    simp [Memory.to_dict, hact]
  simp only [DatabaseManager.save_memory, Bool.false_eq_true, if_false,
    DatabaseManager.get_memory]
  rw [show List.find? (fun r => decide (r.id = m.id ∧ r.user_id = m.user_id ∧
      r.is_active = true))
      (m.to_dict :: db.rows.filter (fun r => decide (r.id ≠ m.id)))
      = some m.to_dict from List.find?_cons_of_pos _ hp]
  show some (Memory.from_dict m.to_dict) = some m
  rw [from_dict_to_dict m hcomma hsing]

def c6m : Memory :=
  { id := "id1".data, user_id := "u1".data, content := "hello".data,
    category := "tools".data, confidence := mkRat 9 10, timestamp := 5,
    conversation_id := "c1".data, tags := ["work".data, "dev".data],
    is_active := true }

/-- C6 witness: the round trip evaluated at a concrete valid memory. -/
theorem c6_round_trip_witness :
    ((DatabaseManager.mk [] []).save_memory c6m false).1.get_memory
      c6m.id c6m.user_id = some c6m :=
  c6_round_trip (DatabaseManager.mk [] []) c6m rfl (by decide) (by decide)

def c6bad : Memory :=
  { id := "id1".data, user_id := "u1".data, content := "hello".data,
    category := "tools".data, confidence := mkRat 9 10, timestamp := 5,
    conversation_id := "c1".data, tags := ["a,b".data], is_active := true }

/-- C6 counterexample: a valid memory whose single tag contains a comma is
not returned field-for-field — the tag list comes back as two tags. -/
theorem c6_counterexample :
    ((DatabaseManager.mk [] []).save_memory c6bad false).1.get_memory
      c6bad.id c6bad.user_id ≠ some c6bad := by decide

/-! ## C3 — retire idempotence -/

/-- C3 (amended): retiring an absent id (or one whose owner does not match)
reports NotFound (`False`), does not throw and appends no audit row; but
retiring an id that still exists for the owner succeeds *again* even when the
record is already inactive: the second call also returns `True` and appends a
second RetirementEvent row, because the UPDATE's WHERE clause does not test
`is_active` and SQLite counts every matched row. -/
theorem delete_memory_no_match (db : DatabaseManager)
    (memory_id user_id reason : Str)
    (h : ∀ row ∈ db.rows, ¬(row.id = memory_id ∧ row.user_id = user_id)) :
    db.delete_memory memory_id user_id reason false = (db, false) := by
  have hc : db.rows.countP (fun r =>
      decide (r.id = memory_id ∧ r.user_id = user_id)) = 0 :=
    List.countP_eq_zero.mpr (by intro a ha; simpa using h a ha)
  simp only [DatabaseManager.delete_memory, Bool.false_eq_true, if_false, hc,
    lt_self_iff_false]

theorem delete_memory_match (db : DatabaseManager)
    (memory_id user_id reason : Str)
    (h : ∃ row ∈ db.rows, row.id = memory_id ∧ row.user_id = user_id) :
    db.delete_memory memory_id user_id reason false =
      ({ rows := db.rows.map (fun r =>
           if decide (r.id = memory_id ∧ r.user_id = user_id) then
             { r with is_active := false }
           else r),
         rels := db.rels ++ [⟨memory_id, "deleted".data, reason⟩] }, true) := by
  obtain ⟨row, hrow, hid, huid⟩ := h
  have hc : 0 < db.rows.countP (fun r =>
      decide (r.id = memory_id ∧ r.user_id = user_id)) :=
    List.countP_pos_iff.mpr ⟨row, hrow, by simp [hid, huid]⟩
  simp only [DatabaseManager.delete_memory, Bool.false_eq_true, if_false,
    if_pos hc]

theorem delete_memory_match_fst (db : DatabaseManager)
    (memory_id user_id reason : Str)
    (h : ∃ row ∈ db.rows, row.id = memory_id ∧ row.user_id = user_id) :
    (db.delete_memory memory_id user_id reason false).1 =
      { rows := db.rows.map (fun r =>
          if decide (r.id = memory_id ∧ r.user_id = user_id) then
            { r with is_active := false }
          else r),
        rels := db.rels ++ [⟨memory_id, "deleted".data, reason⟩] } := by
  rw [delete_memory_match db memory_id user_id reason h]

theorem delete_memory_match_snd (db : DatabaseManager)
    (memory_id user_id reason : Str)
    (h : ∃ row ∈ db.rows, row.id = memory_id ∧ row.user_id = user_id) :
    (db.delete_memory memory_id user_id reason false).2 = true := by
  rw [delete_memory_match db memory_id user_id reason h]

theorem c3_retire_behavior (db : DatabaseManager)
    (memory_id user_id r1 r2 : Str) :
    ((∀ row ∈ db.rows, ¬(row.id = memory_id ∧ row.user_id = user_id)) →
      db.delete_memory memory_id user_id r1 false = (db, false)) ∧
    (∀ row ∈ db.rows, row.id = memory_id → row.user_id = user_id →
      (db.delete_memory memory_id user_id r1 false).2 = true ∧
      ((db.delete_memory memory_id user_id r1 false).1.delete_memory
          memory_id user_id r2 false).2 = true ∧
      ((db.delete_memory memory_id user_id r1 false).1.delete_memory
          memory_id user_id r2 false).1.rels.length = db.rels.length + 2) := by
  constructor
  · intro h
    exact delete_memory_no_match db memory_id user_id r1 h
  · intro row hrow hid huid
    have hfst := delete_memory_match_fst db memory_id user_id r1
      ⟨row, hrow, hid, huid⟩
    have hrow2 : (if decide (row.id = memory_id ∧ row.user_id = user_id) then
        { row with is_active := false } else row) ∈
        db.rows.map (fun r =>
          if decide (r.id = memory_id ∧ r.user_id = user_id) then
            { r with is_active := false }
          else r) := List.mem_map_of_mem _ hrow
    have hmem2 : ∃ row2 ∈ (db.delete_memory memory_id user_id r1 false).1.rows,
        row2.id = memory_id ∧ row2.user_id = user_id := by
      rw [hfst]
      exact ⟨_, hrow2, by simp [hid, huid], by simp [hid, huid]⟩
    refine ⟨delete_memory_match_snd db memory_id user_id r1
      ⟨row, hrow, hid, huid⟩, ?_, ?_⟩
    · exact delete_memory_match_snd _ memory_id user_id r2 hmem2
    · rw [delete_memory_match_fst _ memory_id user_id r2 hmem2]
      simp [hfst]

def c3wdb : DatabaseManager :=
  ⟨[{ id := "m2".data, user_id := "u".data, content := "x".data,
      category := "tools".data, confidence := mkRat 1 2, timestamp := 1,
      conversation_id := "c".data, tags := [], is_active := true }], []⟩

/-- C3 witness: the amended behavior evaluated on a concrete store — an
absent id is a no-op NotFound; a present id retired twice yields `True`
twice and two audit rows. -/
theorem c3_retire_behavior_witness :
    (c3wdb.delete_memory "zz".data "u".data "r1".data false = (c3wdb, false)) ∧
    ((c3wdb.delete_memory "m2".data "u".data "r1".data false).2 = true ∧
     ((c3wdb.delete_memory "m2".data "u".data "r1".data false).1.delete_memory
        "m2".data "u".data "r2".data false).2 = true ∧
     ((c3wdb.delete_memory "m2".data "u".data "r1".data false).1.delete_memory
        "m2".data "u".data "r2".data false).1.rels.length
       = c3wdb.rels.length + 2) :=
  ⟨(c3_retire_behavior c3wdb "zz".data "u".data "r1".data "r2".data).1
      (by decide),
   (c3_retire_behavior c3wdb "m2".data "u".data "r1".data "r2".data).2
      { id := "m2".data, user_id := "u".data, content := "x".data,
        category := "tools".data, confidence := mkRat 1 2, timestamp := 1,
        conversation_id := "c".data, tags := [], is_active := true }
      (by decide) rfl rfl⟩

def c3db : DatabaseManager :=
  ⟨[{ id := "m1".data, user_id := "u".data, content := "x".data,
      category := "tools".data, confidence := mkRat 1 2, timestamp := 1,
      conversation_id := "c".data, tags := [], is_active := true }], []⟩

/-- C3 counterexample: retiring the same id twice — the second call returns
`True` (not NotFound) and the audit log holds two rows for the id, refuting
the claimed idempotence. -/
theorem c3_counterexample :
    ((c3db.delete_memory "m1".data "u".data "r1".data false).1.delete_memory
        "m1".data "u".data "r2".data false).2 = true ∧
    ((c3db.delete_memory "m1".data "u".data "r1".data false).1.delete_memory
        "m1".data "u".data "r2".data false).1.rels.length = 2 := by decide

/-! ## Search membership lemmas -/

theorem mem_insertDistAsc (p x : Rat × VecEntry) (l : List (Rat × VecEntry)) :
    x ∈ insertDistAsc p l ↔ x = p ∨ x ∈ l := by
  induction l with
  | nil => simp [insertDistAsc]
  | cons q qs ih =>
      simp only [insertDistAsc]
      split
      · simp only [List.mem_cons, ih]
        tauto
      · exact List.mem_cons

theorem mem_sortDistAsc (x : Rat × VecEntry) (l : List (Rat × VecEntry)) :
    x ∈ sortDistAsc l ↔ x ∈ l := by
  induction l with
  | nil => simp [sortDistAsc]
  | cons p ps ih => simp [sortDistAsc, mem_insertDistAsc, ih]

theorem vec_search_mem (v : VectorDatabase) (q : List Rat) (user_id : Str)
    (limit : Nat) (minSim : Rat) (h : Hit)
    (hmem : h ∈ v.search_memories q user_id limit minSim) :
    ∃ e ∈ v.entries, e.id = h.id ∧ e.metadata.user_id = user_id ∧
      minSim ≤ ratSub 1 (sqL2 q e.embedding) ∧
      h.similarity = pyRound3 (ratSub 1 (sqL2 q e.embedding)) := by
  simp only [VectorDatabase.search_memories] at hmem
  rw [List.mem_filterMap] at hmem
  obtain ⟨p, hp, hf⟩ := hmem
  have hp' := List.mem_of_mem_take hp
  rw [mem_sortDistAsc, List.mem_map] at hp'
  obtain ⟨e, he, rfl⟩ := hp'
  rw [List.mem_filter] at he
  obtain ⟨heE, heP⟩ := he
  simp only [decide_eq_true_eq] at heP
  simp only at hf
  by_cases hc : minSim ≤ ratSub 1 (sqL2 q e.embedding)
  · rw [if_pos hc] at hf
    obtain rfl := Option.some.inj hf
    exact ⟨e, heE, rfl, heP, hc, rfl⟩
  · rw [if_neg hc] at hf
    exact absurd hf (by simp)

theorem get_memory_some (db : DatabaseManager) (memory_id user_id : Str)
    (m : Memory) (h : db.get_memory memory_id user_id = some m) :
    m.id = memory_id ∧ m.user_id = user_id ∧ m.is_active = true ∧
    ∃ row ∈ db.rows,
      row.id = memory_id ∧ row.user_id = user_id ∧ row.is_active = true := by
  unfold DatabaseManager.get_memory at h
  cases hf : db.rows.find? (fun r =>
      decide (r.id = memory_id ∧ r.user_id = user_id ∧ r.is_active = true)) with
  | none => rw [hf] at h; simp at h
  | some row =>
      rw [hf] at h
      have hp := List.find?_some hf
      simp only [decide_eq_true_eq] at hp
      obtain ⟨h1, h2, h3⟩ := hp
      have hrowmem := List.mem_of_find?_eq_some hf
      have hm : Memory.from_dict row = m := by
        simpa using h
      refine ⟨?_, ?_, ?_, row, hrowmem, h1, h2, h3⟩
      · rw [← hm]; simpa [Memory.from_dict] using h1
      · rw [← hm]; simpa [Memory.from_dict] using h2
      · rw [← hm]; simpa [Memory.from_dict] using h3

/-! ## C4 — owner isolation and liveness of search results -/

/-- C4: every record returned by `searchMemories(owner, query, limit)` belongs
to the calling owner and is active — retrieval never returns another owner's
record and never returns a retired record. -/
theorem c4_search_owner_active (sys : MemorySystem) (user_id query : Str)
    (limit : Nat) (embOf : Str → Option (List Rat)) (m : Memory) (s : Rat)
    (hmem : (m, s) ∈ (sys.search_memories user_id query limit embOf).memories) :
    m.user_id = user_id ∧ m.is_active = true := by
  simp only [MemorySystem.search_memories] at hmem
  split at hmem
  · simp at hmem
  · split at hmem
    · simp at hmem
    · simp only at hmem
      rw [List.mem_filterMap] at hmem
      obtain ⟨r, hr, hget⟩ := hmem
      cases hgm : sys.db_manager.get_memory r.id user_id with
      | none => rw [hgm] at hget; simp at hget
      | some m' =>
          rw [hgm] at hget
          simp only [Option.map_some'] at hget
          obtain ⟨hm, hs⟩ := Prod.mk.inj (Option.some.inj hget)
          obtain ⟨_, hu2, ha, _⟩ := get_memory_some _ _ _ _ hgm
          exact ⟨by rw [← hm]; exact hu2, by rw [← hm]; exact ha⟩

def c4row : MemoryRow :=
  { id := "m1".data, user_id := "u".data, content := "hello".data,
    category := "tools".data, confidence := mkRat 1 2, timestamp := 1,
    conversation_id := "c".data, tags := [], is_active := true }

def c4meta : VecMeta :=
  { user_id := "u".data, category := "tools".data, confidence := mkRat 1 2,
    timestamp := 1, conversation_id := "c".data, tags := [] }

def c4entry : VecEntry :=
  { id := "m1".data, embedding := [1], document := "hello".data,
    metadata := c4meta }

def c4sys : MemorySystem :=
  { db_manager := ⟨[c4row], []⟩, vector_db := ⟨[c4entry]⟩ }

def c4emb : Str → Option (List Rat) :=
  fun s => if s = "q".data then some [1] else none

/-- C4 witness: a concrete search whose returned record is the calling
owner's active record. -/
theorem c4_search_owner_active_witness :
    (Memory.from_dict c4row, pyRound3 (ratSub 1 (sqL2 [1] [1]))) ∈
      (c4sys.search_memories "u".data "q".data 5 c4emb).memories ∧
    (Memory.from_dict c4row).user_id = "u".data ∧
    (Memory.from_dict c4row).is_active = true :=
  ⟨by decide,
   c4_search_owner_active c4sys "u".data "q".data 5 c4emb
     (Memory.from_dict c4row) (pyRound3 (ratSub 1 (sqL2 [1] [1]))) (by decide)⟩

/-! ## C10 — sub-zero similarity candidates are excluded -/

/-- C10: on the retrieval path (which queries the index with
`min_similarity = 0`), any index entry whose similarity `1 − distance` is
strictly negative — i.e. whose distance exceeds 1 — is silently excluded
from the returned candidates, even when it is owned by the caller; so
`searchMemories` can return fewer records than the index holds for the
owner. -/
theorem c10_negative_similarity_excluded (v : VectorDatabase) (q : List Rat)
    (user_id : Str) (limit : Nat) (e : VecEntry) (h : Hit)
    (hnd : (v.entries.map VecEntry.id).Nodup)
    (he : e ∈ v.entries) (_hu : e.metadata.user_id = user_id)
    (hneg : ratSub 1 (sqL2 q e.embedding) < 0)
    (hh : h ∈ v.search_memories q user_id limit 0) :
    h.id ≠ e.id := by
  obtain ⟨e', he', hid, _, hge, _⟩ := vec_search_mem v q user_id limit 0 h hh
  intro hcontra
  have hee : e' = e :=
    List.inj_on_of_nodup_map hnd he' he (by rw [hid, hcontra])
  rw [hee] at hge
  exact absurd hge (not_le.mpr hneg)

def c10near : VecEntry :=
  { id := "near".data, embedding := [0], document := "a".data,
    metadata := { user_id := "u".data, category := "tools".data,
                  confidence := 1, timestamp := 1,
                  conversation_id := "c".data, tags := [] } }

def c10far : VecEntry :=
  { id := "far".data, embedding := [2], document := "b".data,
    metadata := { user_id := "u".data, category := "tools".data,
                  confidence := 1, timestamp := 2,
                  conversation_id := "c".data, tags := [] } }

def c10vec : VectorDatabase := ⟨[c10near, c10far]⟩

def c10hit : Hit :=
  { id := "near".data, document := "a".data, metadata := c10near.metadata,
    similarity := 1 }

/-- C10 witness: with one near and one owned far entry (distance 4,
similarity −3), the far entry's id is not among the returned hits. -/
theorem c10_negative_similarity_excluded_witness :
    c10hit ∈ c10vec.search_memories [0] "u".data 5 0 ∧
    c10hit.id ≠ "far".data :=
  ⟨by decide,
   c10_negative_similarity_excluded c10vec [0] "u".data 5 c10far c10hit
     (by decide) (by decide) (by decide) (by decide) (by decide)⟩

/-! ## C2 — ordering and conditionality of the two ingest writes -/

theorem add_memory_fresh (v : VectorDatabase) (m : Memory) (e : List Rat)
    (hfresh : ∀ en ∈ v.entries, en.id ≠ m.id) :
    v.add_memory m e false = (⟨v.entries ++ [vecEntryOf m e]⟩, true) := by
  have hany : v.entries.any (fun en => decide (en.id = m.id)) = false := by
    rw [List.any_eq_false]
    intro a ha
    simpa using hfresh a ha
  simp [VectorDatabase.add_memory, hany]

/-- C2 (amended): during ingest the StructuredStore write is attempted first
and the SimilarityIndex write is then attempted *unconditionally*; success is
reported only when both writes succeed, but the index is written even when
the StructuredStore write failed (here: the SQLite write raises, the record
is absent from the store, yet the index gains the entry and the call reports
failure). -/
theorem c2_index_write_unconditional (sys : MemorySystem) (m : Memory)
    (embOf : Str → Option (List Rat)) (e : List Rat)
    (hemb : embOf m.content = some e) (hne : e ≠ [])
    (hfresh : ∀ en ∈ sys.vector_db.entries, en.id ≠ m.id) :
    (sys.save_memory m embOf true false).1.db_manager = sys.db_manager ∧
    (sys.save_memory m embOf true false).1.vector_db.entries =
      sys.vector_db.entries ++ [vecEntryOf m e] ∧
    (sys.save_memory m embOf true false).2 = false := by
  unfold MemorySystem.save_memory
  rw [hemb]
  simp only [if_neg hne, DatabaseManager.save_memory, if_pos rfl, if_true,
    add_memory_fresh sys.vector_db m e hfresh]
  refine ⟨?_, ?_, ?_⟩ <;> simp

def c2m : Memory :=
  { id := "m1".data, user_id := "u".data, content := "hello".data,
    category := "tools".data, confidence := mkRat 1 2, timestamp := 1,
    conversation_id := "c".data, tags := [], is_active := true }

def c2sys : MemorySystem := { db_manager := ⟨[], []⟩, vector_db := ⟨[]⟩ }

def c2emb : Str → Option (List Rat) := fun _ => some [1]

/-- C2 witness: the amended behavior at a concrete input — SQLite write
fails, the index entry is written anyway, failure is reported. -/
theorem c2_index_write_unconditional_witness :
    (c2sys.save_memory c2m c2emb true false).1.db_manager = c2sys.db_manager ∧
    (c2sys.save_memory c2m c2emb true false).1.vector_db.entries =
      c2sys.vector_db.entries ++ [vecEntryOf c2m [1]] ∧
    (c2sys.save_memory c2m c2emb true false).2 = false :=
  c2_index_write_unconditional c2sys c2m c2emb [1] rfl (by decide) (by decide)

/-- C2 counterexample: after an ingest insert whose StructuredStore write
failed, the SimilarityIndex nevertheless holds the record — refuting "the
SimilarityIndex is never written for a record whose StructuredStore write
failed". -/
theorem c2_counterexample :
    (c2sys.save_memory c2m c2emb true false).1.vector_db.entries.map
        VecEntry.id = ["m1".data] ∧
    (c2sys.save_memory c2m c2emb true false).1.db_manager.rows = [] := by
  decide

/-! ## Extraction lemmas -/

theorem extract_add (text : Str) (nm : RawNewMemory) (mtr : Option Str) :
    OpenAIClient.extract_memories_from_text text
      (some { action := some ("ADD".data), memory_to_replace := mtr,
              new_memory := some nm })
      = [{ data := nm, action := none, memory_to_replace := [] }] := rfl

theorem extract_update (text hint : Str) (nm : RawNewMemory) :
    OpenAIClient.extract_memories_from_text text
      (some { action := some ("UPDATE".data), memory_to_replace := some hint,
              new_memory := some nm })
      = [{ data := nm, action := some ("UPDATE".data),
           memory_to_replace := hint }] := rfl

theorem extract_fallback (text : Str) :
    OpenAIClient.extract_memories_from_text text none
      = [{ data := { content := some ("User mentioned: ".data ++ text),
                     category := some ("other".data),
                     confidence := some (mkRat 1 2),
                     tags := some ["fallback".data] },
           action := none, memory_to_replace := [] }] := rfl

theorem extract_no_new_memory (text : Str) (d : RawDecision)
    (h : d.new_memory = none) :
    OpenAIClient.extract_memories_from_text text (some d) = [] := by
  cases d with
  | mk action mtr nm =>
      cases h
      cases action with
      | none => rfl
      | some a =>
          by_cases h1 : a = "IGNORE".data
          · simp [OpenAIClient.extract_memories_from_text,
              OpenAIClient.decide_memory_action, h1]
          · by_cases h2 : a = "UPDATE".data
            · simp [OpenAIClient.extract_memories_from_text,
                OpenAIClient.decide_memory_action, h1, h2]
            · by_cases h3 : a = "ADD".data
              · simp [OpenAIClient.extract_memories_from_text,
                  OpenAIClient.decide_memory_action, h1, h2, h3]
              · simp [OpenAIClient.extract_memories_from_text,
                  OpenAIClient.decide_memory_action, h1, h2, h3]

theorem process_message_of_extract_nil (sys : MemorySystem)
    (user_id text conv : Str) (resp : Option RawDecision) (ids : List Str)
    (now : Nat) (embOf : Str → Option (List Rat)) (e1 e2 e3 e4 : Bool)
    (h : OpenAIClient.extract_memories_from_text text resp = []) :
    sys.process_message user_id text conv resp ids now embOf e1 e2 e3 e4
      = (sys, 0) := by
  unfold MemorySystem.process_message
  rw [h]
  cases ids <;> simp [MemorySystem.process_loop]

theorem process_loop_single (sys : MemorySystem) (cand : CandidateMeta)
    (user_id conv i : Str) (rest : List Str) (now : Nat)
    (embOf : Str → Option (List Rat)) (sqlExn vecExn : Bool) :
    MemorySystem.process_loop sys [cand] user_id conv (i :: rest) now embOf
        sqlExn vecExn
      = match MemorySystem.create_memory_from_data cand.data user_id conv
            i now with
        | none => (sys, 0)
        | some m =>
            ((sys.save_memory m embOf sqlExn vecExn).1,
             if (sys.save_memory m embOf sqlExn vecExn).2 then 1 else 0) := by
  unfold MemorySystem.process_loop
  cases MemorySystem.create_memory_from_data cand.data user_id conv i now with
  | none => simp [MemorySystem.process_loop]
  | some m => simp [MemorySystem.process_loop]

theorem process_loop_single_some (sys : MemorySystem) (cand : CandidateMeta)
    (user_id conv i : Str) (rest : List Str) (now : Nat)
    (embOf : Str → Option (List Rat)) (sqlExn vecExn : Bool) (m : Memory)
    (hcreate : MemorySystem.create_memory_from_data cand.data user_id conv
        i now = some m) :
    MemorySystem.process_loop sys [cand] user_id conv (i :: rest) now embOf
        sqlExn vecExn
      = ((sys.save_memory m embOf sqlExn vecExn).1,
         if (sys.save_memory m embOf sqlExn vecExn).2 then 1 else 0) := by
  rw [process_loop_single, hcreate]

theorem save_memory_ok (sys : MemorySystem) (m : Memory)
    (embOf : Str → Option (List Rat)) (e : List Rat)
    (hemb : embOf m.content = some e) (hne : e ≠ [])
    (hfresh : ∀ en ∈ sys.vector_db.entries, en.id ≠ m.id) :
    sys.save_memory m embOf false false =
      ({ db_manager := ⟨m.to_dict :: sys.db_manager.rows.filter
            (fun r => decide (r.id ≠ m.id)), sys.db_manager.rels⟩,
         vector_db := ⟨sys.vector_db.entries ++ [vecEntryOf m e]⟩ }, true) := by
  unfold MemorySystem.save_memory
  rw [hemb]
  simp only [if_neg hne, DatabaseManager.save_memory, Bool.false_eq_true,
    if_false, add_memory_fresh sys.vector_db m e hfresh, Bool.and_self]

/-! ## C5 — no clamping or category normalization at ingest -/

/-- C5 (amended): the ingest pipeline performs *no* confidence clamping, no
category normalization and no tag deduplication: an accepted ADD candidate is
stored with its category, confidence and tags taken verbatim (defaults
`other` / `0.8` / `[]` apply only to absent fields); only non-empty content
is enforced.  In particular a confidence outside `[0,1]` or a category
outside the closed enum is stored as-is in both stores. -/
theorem c5_verbatim_storage (sys : MemorySystem)
    (user_id text conv c cat newId : Str) (q : Rat) (tg : List Str)
    (rest : List Str) (now : Nat) (embOf : Str → Option (List Rat))
    (e : List Rat) (hc : c ≠ []) (hemb : embOf c = some e) (hne : e ≠ [])
    (hfresh : ∀ en ∈ sys.vector_db.entries, en.id ≠ newId) :
    (sys.process_message user_id text conv
        (some { action := some ("ADD".data), memory_to_replace := none,
                new_memory := some { content := some c, category := some cat,
                                     confidence := some q,
                                     tags := some tg } })
        (newId :: rest) now embOf false false false false).2 = 1 ∧
    (sys.process_message user_id text conv
        (some { action := some ("ADD".data), memory_to_replace := none,
                new_memory := some { content := some c, category := some cat,
                                     confidence := some q,
                                     tags := some tg } })
        (newId :: rest) now embOf false false false false).1.db_manager.rows =
      (Memory.mk newId user_id c cat q now conv tg true).to_dict ::
        sys.db_manager.rows.filter (fun r => decide (r.id ≠ newId)) ∧
    (sys.process_message user_id text conv
        (some { action := some ("ADD".data), memory_to_replace := none,
                new_memory := some { content := some c, category := some cat,
                                     confidence := some q,
                                     tags := some tg } })
        (newId :: rest) now embOf false false false false).1.vector_db.entries =
      sys.vector_db.entries ++
        [vecEntryOf (Memory.mk newId user_id c cat q now conv tg true) e] := by
  have hm : MemorySystem.create_memory_from_data
      { content := some c, category := some cat, confidence := some q,
        tags := some tg } user_id conv newId now
      = some (Memory.mk newId user_id c cat q now conv tg true) := by
    simp [MemorySystem.create_memory_from_data, hc]
  have hrun : sys.process_message user_id text conv
      (some { action := some ("ADD".data), memory_to_replace := none,
              new_memory := some { content := some c, category := some cat,
                                   confidence := some q,
                                   tags := some tg } })
      (newId :: rest) now embOf false false false false =
      ({ db_manager := ⟨(Memory.mk newId user_id c cat q now conv tg
            true).to_dict :: sys.db_manager.rows.filter
            (fun r => decide (r.id ≠ newId)), sys.db_manager.rels⟩,
         vector_db := ⟨sys.vector_db.entries ++
           [vecEntryOf (Memory.mk newId user_id c cat q now conv tg true)
             e]⟩ }, 1) := by
    unfold MemorySystem.process_message
    rw [extract_add]
    simp only [List.cons.injEq]
    rw [if_neg (by simp)]
    rw [process_loop_single_some sys _ user_id conv newId rest now embOf
      false false _ hm]
    rw [save_memory_ok sys (Memory.mk newId user_id c cat q now conv tg true)
      embOf e hemb hne hfresh]
    rfl
  rw [hrun]
  exact ⟨rfl, rfl, rfl⟩

def c5sys : MemorySystem := { db_manager := ⟨[], []⟩, vector_db := ⟨[]⟩ }

/-- C5 counterexample: a candidate with confidence `1.5` and category
`banana` is stored verbatim — the stored record's confidence lies outside
`[0,1]` and its category outside the closed enum, refuting the claimed
clamping/normalization. -/
theorem c5_counterexample :
    ((c5sys.process_message "u".data "t".data "c".data
        (some { action := some ("ADD".data), memory_to_replace := none,
                new_memory := some { content := some ("x".data),
                                     category := some ("banana".data),
                                     confidence := some (mkRat 3 2),
                                     tags := some [] } })
        ["id1".data] 7 (fun _ => some [1])
        false false false false).1.db_manager.rows.map
      MemoryRow.confidence = [mkRat 3 2]) ∧
    ((c5sys.process_message "u".data "t".data "c".data
        (some { action := some ("ADD".data), memory_to_replace := none,
                new_memory := some { content := some ("x".data),
                                     category := some ("banana".data),
                                     confidence := some (mkRat 3 2),
                                     tags := some [] } })
        ["id1".data] 7 (fun _ => some [1])
        false false false false).1.db_manager.rows.map
      MemoryRow.category = ["banana".data]) ∧
    ¬(mkRat 3 2 ≤ 1) := by decide

/-- C5 witness: the verbatim-storage theorem evaluated at a concrete
out-of-range candidate. -/
theorem c5_verbatim_storage_witness :
    (c5sys.process_message "u".data "t".data "c".data
        (some { action := some ("ADD".data), memory_to_replace := none,
                new_memory := some { content := some ("x".data),
                                     category := some ("banana".data),
                                     confidence := some (mkRat 3 2),
                                     tags := some [] } })
        ["id1".data] 7 (fun _ => some [1]) false false false false).2 = 1 ∧
    (c5sys.process_message "u".data "t".data "c".data
        (some { action := some ("ADD".data), memory_to_replace := none,
                new_memory := some { content := some ("x".data),
                                     category := some ("banana".data),
                                     confidence := some (mkRat 3 2),
                                     tags := some [] } })
        ["id1".data] 7 (fun _ => some [1])
        false false false false).1.db_manager.rows =
      (Memory.mk ("id1".data) ("u".data) ("x".data) ("banana".data)
        (mkRat 3 2) 7 ("c".data) [] true).to_dict ::
        c5sys.db_manager.rows.filter (fun r => decide (r.id ≠ "id1".data)) ∧
    (c5sys.process_message "u".data "t".data "c".data
        (some { action := some ("ADD".data), memory_to_replace := none,
                new_memory := some { content := some ("x".data),
                                     category := some ("banana".data),
                                     confidence := some (mkRat 3 2),
                                     tags := some [] } })
        ["id1".data] 7 (fun _ => some [1])
        false false false false).1.vector_db.entries =
      c5sys.vector_db.entries ++
        [vecEntryOf (Memory.mk ("id1".data) ("u".data) ("x".data)
          ("banana".data) (mkRat 3 2) 7 ("c".data) [] true) [1]] :=
  c5_verbatim_storage c5sys "u".data "t".data "c".data "x".data "banana".data
    "id1".data (mkRat 3 2) [] [] 7 (fun _ => some [1]) [1]
    (by decide) rfl (by decide) (by decide)

/-! ## C9 — decision-failure fallback -/

/-- C9 (amended): when the Language Understanding call fails or its reply is
not parsable as JSON (the `except` path, `resp = none`), the engine stores
exactly one low-confidence (0.5) ADD candidate tagged `fallback` built from
the raw input text.  But a reply that parses as JSON while missing the
`new_memory` payload (a malformed decision) yields an empty extraction and
the input *is* silently discarded — no fallback is synthesized on that path. -/
theorem c9_fallback (sys : MemorySystem) (user_id text conv newId : Str)
    (rest : List Str) (now : Nat) (embOf : Str → Option (List Rat))
    (e : List Rat)
    (hemb : embOf ("User mentioned: ".data ++ text) = some e) (hne : e ≠ [])
    (hfresh : ∀ en ∈ sys.vector_db.entries, en.id ≠ newId) :
    (sys.process_message user_id text conv none (newId :: rest) now embOf
        false false false false).2 = 1 ∧
    (sys.process_message user_id text conv none (newId :: rest) now embOf
        false false false false).1.db_manager.rows =
      (Memory.mk newId user_id ("User mentioned: ".data ++ text)
        ("other".data) (mkRat 1 2) now conv ["fallback".data] true).to_dict ::
        sys.db_manager.rows.filter (fun r => decide (r.id ≠ newId)) ∧
    (∀ d : RawDecision, d.new_memory = none →
      sys.process_message user_id text conv (some d) (newId :: rest) now
        embOf false false false false = (sys, 0)) := by
  have hnz : ("User mentioned: ".data ++ text) ≠ [] := fun h =>
    absurd (List.append_eq_nil.mp h).1 (by decide)
  have hm : MemorySystem.create_memory_from_data
      { content := some ("User mentioned: ".data ++ text),
        category := some ("other".data), confidence := some (mkRat 1 2),
        tags := some ["fallback".data] } user_id conv newId now
      = some (Memory.mk newId user_id ("User mentioned: ".data ++ text)
          ("other".data) (mkRat 1 2) now conv ["fallback".data] true) := by
    simp [MemorySystem.create_memory_from_data, hnz]
  have hrun : sys.process_message user_id text conv none (newId :: rest) now
      embOf false false false false =
      ({ db_manager := ⟨(Memory.mk newId user_id
            ("User mentioned: ".data ++ text) ("other".data) (mkRat 1 2) now
            conv ["fallback".data] true).to_dict ::
            sys.db_manager.rows.filter (fun r => decide (r.id ≠ newId)),
            sys.db_manager.rels⟩,
         vector_db := ⟨sys.vector_db.entries ++
           [vecEntryOf (Memory.mk newId user_id
             ("User mentioned: ".data ++ text) ("other".data) (mkRat 1 2) now
             conv ["fallback".data] true) e]⟩ }, 1) := by
    unfold MemorySystem.process_message
    rw [extract_fallback]
    simp only [List.cons.injEq]
    rw [if_neg (by simp)]
    rw [process_loop_single_some sys _ user_id conv newId rest now embOf
      false false _ hm]
    rw [save_memory_ok sys (Memory.mk newId user_id
      ("User mentioned: ".data ++ text) ("other".data) (mkRat 1 2) now conv
      ["fallback".data] true) embOf e hemb hne hfresh]
    rfl
  refine ⟨by rw [hrun], by rw [hrun], ?_⟩
  intro d hd
  exact process_message_of_extract_nil sys user_id text conv (some d)
    (newId :: rest) now embOf false false false false
    (extract_no_new_memory text d hd)

def c9sys : MemorySystem := { db_manager := ⟨[], []⟩, vector_db := ⟨[]⟩ }

/-- C9 witness: the fallback path evaluated at a concrete input, and a
concrete malformed decision whose ingest stores nothing. -/
theorem c9_fallback_witness :
    (c9sys.process_message "u".data "hi".data "c".data none ["id1".data] 3
        (fun _ => some [1]) false false false false).2 = 1 ∧
    (c9sys.process_message "u".data "hi".data "c".data none ["id1".data] 3
        (fun _ => some [1]) false false false false).1.db_manager.rows =
      (Memory.mk ("id1".data) ("u".data) ("User mentioned: ".data ++
        "hi".data) ("other".data) (mkRat 1 2) 3 ("c".data)
        ["fallback".data] true).to_dict ::
        c9sys.db_manager.rows.filter (fun r => decide (r.id ≠ "id1".data)) ∧
    c9sys.process_message "u".data "hi".data "c".data
      (some { action := some ("ADD".data), memory_to_replace := none,
              new_memory := none }) ["id1".data] 3
      (fun _ => some [1]) false false false false = (c9sys, 0) :=
  ⟨(c9_fallback c9sys "u".data "hi".data "c".data "id1".data [] 3
      (fun _ => some [1]) [1] rfl (by decide) (by decide)).1,
   (c9_fallback c9sys "u".data "hi".data "c".data "id1".data [] 3
      (fun _ => some [1]) [1] rfl (by decide) (by decide)).2.1,
   (c9_fallback c9sys "u".data "hi".data "c".data "id1".data [] 3
      (fun _ => some [1]) [1] rfl (by decide) (by decide)).2.2
     { action := some ("ADD".data), memory_to_replace := none,
       new_memory := none } rfl⟩

def c9bsys : MemorySystem := { db_manager := ⟨[], []⟩, vector_db := ⟨[]⟩ }

/-- C9 counterexample: a decision that is valid JSON but malformed (it has an
`ADD` action and no `new_memory`) stores nothing — no fallback record is
created and the input is silently discarded, refuting the claim that every
malformed decision yields one stored fallback candidate. -/
theorem c9_counterexample :
    c9bsys.process_message "u".data "I use Notion".data "c".data
      (some { action := some ("ADD".data), memory_to_replace := none,
              new_memory := none }) ["id1".data] 3
      (fun _ => some [1]) false false false false = (c9bsys, 0) := by decide

/-! ## C7 — UPDATE-target resolution window -/

theorem delete_conflicting_no_match (sys : MemorySystem) (user_id hint : Str)
    (e1 e2 : Bool)
    (h : ∀ m ∈ sys.db_manager.get_user_memories user_id none (some 20),
      matchesHint hint m = false) :
    sys.delete_conflicting_memory user_id hint e1 e2 = sys := by
  unfold MemorySystem.delete_conflicting_memory
  have hfind : (sys.db_manager.get_user_memories user_id none
      (some 20)).find? (matchesHint hint) = none :=
    List.find?_eq_none.mpr (fun m hm => by simp [h m hm])
  simp only [hfind]

theorem process_loop_congr (sys : MemorySystem) (c1 c2 : CandidateMeta)
    (user_id conv : Str) (ids : List Str) (now : Nat)
    (embOf : Str → Option (List Rat)) (sqlExn vecExn : Bool)
    (h : c1.data = c2.data) :
    MemorySystem.process_loop sys [c1] user_id conv ids now embOf sqlExn
        vecExn
      = MemorySystem.process_loop sys [c2] user_id conv ids now embOf sqlExn
        vecExn := by
  cases ids with
  | nil => rfl
  | cons i rest => simp only [MemorySystem.process_loop, h]

/-- C7 (amended): the UPDATE old-record target is resolved by scanning the
owner's up-to-20 most-recent active records (not the 5-record decision
window) for the first record whose content case-insensitively contains, or
is contained by, `oldContentHint`; when no record of that 20-window matches,
ingestion is not blocked — the call behaves exactly like the same decision
tagged ADD. -/
theorem c7_update_no_match_is_add (sys : MemorySystem)
    (user_id text conv hint : Str) (nm : RawNewMemory) (ids : List Str)
    (now : Nat) (embOf : Str → Option (List Rat)) (e1 e2 e3 e4 : Bool)
    (hnomatch : ∀ m ∈ sys.db_manager.get_user_memories user_id none
      (some 20), matchesHint hint m = false) :
    sys.process_message user_id text conv
      (some { action := some ("UPDATE".data), memory_to_replace := some hint,
              new_memory := some nm }) ids now embOf e1 e2 e3 e4
    = sys.process_message user_id text conv
        (some { action := some ("ADD".data), memory_to_replace := none,
                new_memory := some nm }) ids now embOf e1 e2 e3 e4 := by
  unfold MemorySystem.process_message
  rw [extract_update, extract_add]
  simp only [List.cons.injEq]
  by_cases hhint : hint = []
  · subst hhint
    rw [if_neg (by simp), if_neg (by simp)]
    exact process_loop_congr sys _ _ user_id conv ids now embOf e3 e4 rfl
  · rw [if_pos (by refine ⟨?_, hhint⟩; simp)]
    rw [delete_conflicting_no_match sys user_id hint e1 e2 hnomatch]
    rw [if_neg (by simp)]
    exact process_loop_congr sys _ _ user_id conv ids now embOf e3 e4 rfl

def mkRow (memory_id content : Str) (ts : Nat) : MemoryRow :=
  { id := memory_id, user_id := "u".data, content := content,
    category := "tools".data, confidence := 1, timestamp := ts,
    conversation_id := "c".data, tags := [], is_active := true }

def c7sys : MemorySystem :=
  { db_manager := ⟨[mkRow ("m1".data) ("b1".data) 6,
      mkRow ("m2".data) ("b2".data) 5, mkRow ("m3".data) ("b3".data) 4,
      mkRow ("m4".data) ("b4".data) 3, mkRow ("m5".data) ("b5".data) 2,
      mkRow ("m6".data) ("alpha stuff".data) 1], []⟩,
    vector_db := ⟨[]⟩ }

/-- C7 counterexample: the owner has six active records and only the sixth
most-recent (outside the 5-record decision window) matches the hint; the
claim says no retirement happens and ingestion proceeds as a plain ADD, but
the code scans a 20-record window, finds it and retires it. -/
theorem c7_counterexample :
    ((c7sys.process_message "u".data "t".data "c".data
        (some { action := some ("UPDATE".data),
                memory_to_replace := some ("alpha".data),
                new_memory := some { content := some ("new".data),
                                     category := some ("tools".data),
                                     confidence := some 1,
                                     tags := some [] } })
        ["n1".data] 10 (fun _ => some [1])
        false false false false).1.db_manager.rels =
      [⟨"m6".data, "deleted".data, "Replaced by new information".data⟩]) := by
  decide

def c7wsys : MemorySystem :=
  { db_manager := ⟨[mkRow ("m1".data) ("b1".data) 6], []⟩,
    vector_db := ⟨[]⟩ }

/-- C7 witness: with no record of the window matching the hint, the UPDATE
ingest equals the plain-ADD ingest at a concrete input. -/
theorem c7_update_no_match_is_add_witness :
    c7wsys.process_message "u".data "t".data "c".data
      (some { action := some ("UPDATE".data),
              memory_to_replace := some ("zz".data),
              new_memory := some { content := some ("new".data),
                                   category := some ("tools".data),
                                   confidence := some 1, tags := some [] } })
      ["n1".data] 10 (fun _ => some [1]) false false false false
    = c7wsys.process_message "u".data "t".data "c".data
        (some { action := some ("ADD".data), memory_to_replace := none,
                new_memory := some { content := some ("new".data),
                                     category := some ("tools".data),
                                     confidence := some 1,
                                     tags := some [] } })
        ["n1".data] 10 (fun _ => some [1]) false false false false :=
  c7_update_no_match_is_add c7wsys "u".data "t".data "c".data "zz".data
    { content := some ("new".data), category := some ("tools".data),
      confidence := some 1, tags := some [] }
    ["n1".data] 10 (fun _ => some [1]) false false false false (by decide)

/-! ## C8 — deleteByContent behavior -/

theorem search_memories_cases (sys : MemorySystem) (user_id query : Str)
    (limit : Nat) (embOf : Str → Option (List Rat)) :
    (sys.search_memories user_id query limit embOf).success = true ∨
    sys.search_memories user_id query limit embOf
      = { success := false, memories := [] } := by
  unfold MemorySystem.search_memories
  cases embOf query with
  | none => right; rfl
  | some qe =>
      by_cases h : qe = []
      · right; simp [h]
      · left; simp [h]

theorem search_mem_facts (sys : MemorySystem) (user_id query : Str)
    (limit : Nat) (embOf : Str → Option (List Rat)) (m : Memory) (s : Rat)
    (hmem : (m, s) ∈ (sys.search_memories user_id query limit embOf).memories) :
    (∃ row ∈ sys.db_manager.rows,
      row.id = m.id ∧ row.user_id = user_id ∧ row.is_active = true) ∧
    (∃ en ∈ sys.vector_db.entries,
      en.id = m.id ∧ en.metadata.user_id = user_id) := by
  simp only [MemorySystem.search_memories] at hmem
  split at hmem
  · simp at hmem
  · split at hmem
    · simp at hmem
    · simp only at hmem
      rw [List.mem_filterMap] at hmem
      obtain ⟨r, hr, hget⟩ := hmem
      cases hgm : sys.db_manager.get_memory r.id user_id with
      | none => rw [hgm] at hget; simp at hget
      | some m' =>
          rw [hgm] at hget
          simp only [Option.map_some'] at hget
          obtain ⟨hm, hs⟩ := Prod.mk.inj (Option.some.inj hget)
          obtain ⟨hid', huid', hact', row, hrowmem, h1, h2, h3⟩ :=
            get_memory_some _ _ _ _ hgm
          obtain ⟨en, henmem, henid, henuid, _, _⟩ :=
            vec_search_mem sys.vector_db _ user_id limit 0 r hr
          refine ⟨⟨row, hrowmem, ?_, h2, h3⟩, en, henmem, ?_, henuid⟩
          · rw [h1, ← hm, hid']
          · rw [henid, ← hm, hid']

theorem vec_delete_found (v : VectorDatabase) (memory_id user_id : Str)
    (h : ∃ en ∈ v.entries, en.id = memory_id ∧ en.metadata.user_id = user_id) :
    (v.delete_memory memory_id user_id false).2 = true := by
  obtain ⟨en, he, h1, h2⟩ := h
  have hany : v.entries.any (fun x =>
      decide (x.id = memory_id ∧ x.metadata.user_id = user_id)) = true :=
    List.any_eq_true.mpr ⟨en, he, by simp [h1, h2]⟩
  unfold VectorDatabase.delete_memory
  rw [if_neg (by simp), if_pos hany]

/-- C8 (amended): `deleteByContent(owner, text, reason)` runs the retrieval
path with `limit=3`; a failed search or zero hits returns NotFound with no
mutation of either store.  Otherwise the top hit is retired in the
StructuredStore first and then removed from the SimilarityIndex, but the
call reports success only when *both* removals succeed: a SimilarityIndex
removal failure is reported as a failure of the whole call (the
StructuredStore retirement having already happened and not being rolled
back), rather than tolerated. -/
theorem c8_delete_by_content (sys : MemorySystem)
    (user_id text reason : Str) (embOf : Str → Option (List Rat))
    (sqlExn vecExn : Bool) :
    (((sys.search_memories user_id text 3 embOf).success = false ∨
      (sys.search_memories user_id text 3 embOf).memories = []) →
      sys.delete_memory_by_content user_id text reason embOf sqlExn vecExn
        = (sys, false)) ∧
    (∀ m s rest,
      (sys.search_memories user_id text 3 embOf).memories = (m, s) :: rest →
      (sys.delete_memory_by_content user_id text reason embOf sqlExn
          vecExn).2 = (!sqlExn && !vecExn) ∧
      (sqlExn = false →
        ∀ r ∈ (sys.delete_memory_by_content user_id text reason embOf
            sqlExn vecExn).1.db_manager.rows,
          r.id = m.id → r.user_id = user_id → r.is_active = false)) := by
  constructor
  · intro h
    rcases h with h | h
    · simp only [MemorySystem.delete_memory_by_content, h]
    · cases hsucc : (sys.search_memories user_id text 3 embOf).success with
      | false => simp only [MemorySystem.delete_memory_by_content, hsucc, h]
      | true => simp only [MemorySystem.delete_memory_by_content, hsucc, h]
  · intro m s rest hmem
    rcases search_memories_cases sys user_id text 3 embOf with hsucc | heq
    swap
    · rw [heq] at hmem; simp at hmem
    have hmm : (m, s) ∈ (sys.search_memories user_id text 3 embOf).memories := by
      rw [hmem]; exact List.mem_cons_self _ _
    obtain ⟨⟨row, hrowmem, hrid, hruid, hact⟩, en, henmem, henid, henuid⟩ :=
      search_mem_facts sys user_id text 3 embOf m s hmm
    have hsql2 : (sys.db_manager.delete_memory m.id user_id reason
        sqlExn).2 = !sqlExn := by
      cases sqlExn
      · simpa using delete_memory_match_snd sys.db_manager m.id user_id
          reason ⟨row, hrowmem, hrid, hruid⟩
      · rfl
    have hvec2 : (sys.vector_db.delete_memory m.id user_id vecExn).2
        = !vecExn := by
      cases vecExn
      · simpa using vec_delete_found sys.vector_db m.id user_id
          ⟨en, henmem, henid, henuid⟩
      · rfl
    constructor
    · simp only [MemorySystem.delete_memory_by_content, hsucc, hmem,
        hsql2, hvec2]
    · intro hsqlExn r hr hrid2 hruid2
      subst hsqlExn
      simp only [MemorySystem.delete_memory_by_content, hsucc, hmem] at hr
      rw [delete_memory_match_fst sys.db_manager m.id user_id reason
        ⟨row, hrowmem, hrid, hruid⟩] at hr
      simp only [List.mem_map] at hr
      obtain ⟨r0, hr0, rfl⟩ := hr
      by_cases hmatch : r0.id = m.id ∧ r0.user_id = user_id
      · simp [hmatch]
      · rw [if_neg (by simpa using hmatch)] at hrid2 hruid2 ⊢
        exact absurd ⟨hrid2, hruid2⟩ hmatch

def c8row : MemoryRow :=
  { id := "m1".data, user_id := "u".data, content := "hello".data,
    category := "tools".data, confidence := mkRat 1 2, timestamp := 1,
    conversation_id := "c".data, tags := [], is_active := true }

def c8entry : VecEntry :=
  { id := "m1".data, embedding := [1], document := "hello".data,
    metadata := { user_id := "u".data, category := "tools".data,
                  confidence := mkRat 1 2, timestamp := 1,
                  conversation_id := "c".data, tags := [] } }

def c8sys : MemorySystem :=
  { db_manager := ⟨[c8row], []⟩, vector_db := ⟨[c8entry]⟩ }

def c8esys : MemorySystem := { db_manager := ⟨[], []⟩, vector_db := ⟨[]⟩ }

def c8emb : Str → Option (List Rat) :=
  fun s => if s = "q".data then some [1] else none

/-- C8 witness: on an empty store the call returns NotFound with no
mutation; on a store holding the hit, a SimilarityIndex removal failure
makes the whole call report failure. -/
theorem c8_delete_by_content_witness :
    c8esys.delete_memory_by_content "u".data "q".data "r".data c8emb
      false false = (c8esys, false) ∧
    (c8sys.delete_memory_by_content "u".data "q".data "r".data c8emb
      false true).2 = (!false && !true) :=
  ⟨(c8_delete_by_content c8esys "u".data "q".data "r".data c8emb
      false false).1 (Or.inr (by decide)),
   ((c8_delete_by_content c8sys "u".data "q".data "r".data c8emb
      false true).2 (Memory.from_dict c8row)
      (pyRound3 (ratSub 1 (sqL2 [1] [1]))) [] (by decide)).1⟩

/-- C8 counterexample: the hit is retired in the StructuredStore, the
SimilarityIndex removal fails, and the call reports failure — refuting the
claim that an index-removal failure is tolerated and the call still reports
the deletion. -/
theorem c8_counterexample :
    (c8sys.delete_memory_by_content "u".data "q".data "r".data c8emb
      false true).2 = false ∧
    (c8sys.delete_memory_by_content "u".data "q".data "r".data c8emb
      false true).1.db_manager.rows.map MemoryRow.is_active = [false] := by
  decide

/-! ## C1 — abort semantics of validation/embedding failure -/

theorem create_memory_some (d : RawNewMemory) (user_id conv i : Str)
    (now : Nat) (m : Memory)
    (h : MemorySystem.create_memory_from_data d user_id conv i now
      = some m) :
    d.content = some m.content ∧ m.content ≠ [] := by
  unfold MemorySystem.create_memory_from_data at h
  cases hc : d.content with
  | none => simp [hc] at h
  | some c =>
      simp only [hc] at h
      by_cases hce : c = []
      · rw [if_pos hce] at h
        simp at h
      · rw [if_neg hce] at h
        obtain rfl := Option.some.inj h
        exact ⟨rfl, hce⟩

theorem process_loop_abort (sys : MemorySystem)
    (cands : List CandidateMeta) (user_id conv : Str) (ids : List Str)
    (now : Nat) (embOf : Str → Option (List Rat)) (sqlExn vecExn : Bool)
    (hA : ∀ cd ∈ cands, ∀ c, cd.data.content = some c → c ≠ [] →
      embOf c = none ∨ embOf c = some []) :
    MemorySystem.process_loop sys cands user_id conv ids now embOf sqlExn
      vecExn = (sys, 0) := by
  revert hA
  induction cands generalizing ids with
  | nil =>
      intro hA
      cases ids <;> rfl
  | cons cd cs ih =>
      intro hA
      have hA2 : ∀ cd2 ∈ cs, ∀ c, cd2.data.content = some c → c ≠ [] →
          embOf c = none ∨ embOf c = some [] :=
        fun cd2 h2 => hA cd2 (List.mem_cons_of_mem _ h2)
      cases ids with
      | nil => rfl
      | cons i rest =>
          cases hcr : MemorySystem.create_memory_from_data cd.data user_id
              conv i now with
          | none =>
              simp only [MemorySystem.process_loop, hcr]
              exact ih rest hA2
          | some m =>
              obtain ⟨hcnt, hcne⟩ := create_memory_some cd.data user_id conv
                i now m hcr
              have hsave : sys.save_memory m embOf sqlExn vecExn
                  = (sys, false) := by
                rcases hA cd (List.mem_cons_self _ _) m.content hcnt hcne
                    with h | h <;>
                  simp [MemorySystem.save_memory, h]
              simp only [MemorySystem.process_loop, hcr, hsave, ih rest hA2,
                Bool.false_eq_true, if_false]

theorem process_message_abort (sys : MemorySystem)
    (user_id text conv : Str) (resp : Option RawDecision) (ids : List Str)
    (now : Nat) (embOf : Str → Option (List Rat)) (e1 e2 e3 e4 : Bool)
    (hA : ∀ md ∈ OpenAIClient.extract_memories_from_text text resp, ∀ c,
      md.data.content = some c → c ≠ [] →
      embOf c = none ∨ embOf c = some []) :
    sys.process_message user_id text conv resp ids now embOf e1 e2 e3 e4
      = (match OpenAIClient.extract_memories_from_text text resp with
         | [] => sys
         | md :: _ =>
             if md.action = some ("UPDATE".data) ∧
                 md.memory_to_replace ≠ [] then
               sys.delete_conflicting_memory user_id md.memory_to_replace
                 e1 e2
             else sys, 0) := by
  unfold MemorySystem.process_message
  exact process_loop_abort _ _ user_id conv ids now embOf e3 e4 hA

theorem delete_memory_rows_pres (db : DatabaseManager)
    (memory_id user_id reason : Str) (exn : Bool) :
    ∀ r ∈ (db.delete_memory memory_id user_id reason exn).1.rows,
      ∃ r0 ∈ db.rows, r0.id = r.id ∧ r0.user_id = r.user_id ∧
        r0.content = r.content := by
  intro r hr
  cases exn with
  | true => exact ⟨r, hr, rfl, rfl, rfl⟩
  | false =>
      by_cases hmatch : ∃ row ∈ db.rows,
          row.id = memory_id ∧ row.user_id = user_id
      · rw [delete_memory_match_fst db memory_id user_id reason hmatch] at hr
        obtain ⟨r0, hr0, rfl⟩ := List.mem_map.mp hr
        refine ⟨r0, hr0, ?_, ?_, ?_⟩ <;>
          by_cases h : (r0.id = memory_id ∧ r0.user_id = user_id) <;> simp [h]
      · have hnone := delete_memory_no_match db memory_id user_id reason
          (fun row hrow hcontra => hmatch ⟨row, hrow, hcontra⟩)
        rw [hnone] at hr
        exact ⟨r, hr, rfl, rfl, rfl⟩

theorem vec_delete_subset (v : VectorDatabase) (memory_id user_id : Str)
    (exn : Bool) :
    ∀ en ∈ (v.delete_memory memory_id user_id exn).1.entries,
      en ∈ v.entries := by
  intro en hen
  unfold VectorDatabase.delete_memory at hen
  split at hen
  · exact hen
  · split at hen
    · exact List.mem_of_mem_filter hen
    · exact hen

theorem delete_conflicting_rows (sys : MemorySystem) (user_id hint : Str)
    (e1 e2 : Bool) :
    ∀ r ∈ (sys.delete_conflicting_memory user_id hint e1 e2).db_manager.rows,
      ∃ r0 ∈ sys.db_manager.rows, r0.id = r.id ∧ r0.user_id = r.user_id ∧
        r0.content = r.content := by
  intro r hr
  unfold MemorySystem.delete_conflicting_memory at hr
  cases hf : (sys.db_manager.get_user_memories user_id none
      (some 20)).find? (matchesHint hint) with
  | none =>
      simp only [hf] at hr
      exact ⟨r, hr, rfl, rfl, rfl⟩
  | some m =>
      simp only [hf] at hr
      exact delete_memory_rows_pres sys.db_manager m.id user_id
        ("Replaced by new information".data) e1 r hr

theorem delete_conflicting_vec (sys : MemorySystem) (user_id hint : Str)
    (e1 e2 : Bool) :
    ∀ en ∈ (sys.delete_conflicting_memory user_id hint e1 e2).vector_db.entries,
      en ∈ sys.vector_db.entries := by
  intro en hen
  unfold MemorySystem.delete_conflicting_memory at hen
  cases hf : (sys.db_manager.get_user_memories user_id none
      (some 20)).find? (matchesHint hint) with
  | none =>
      simp only [hf] at hen
      exact hen
  | some m =>
      simp only [hf] at hen
      exact vec_delete_subset sys.vector_db m.id user_id e2 en hen

/-- C1 (amended): when every extracted candidate fails the
validation/embedding boundary — its content is absent or empty (a
ValidationError), or embedding generation fails (or returns the falsy empty
vector) for its content — the ingest call inserts nothing: the extracted
count is 0, no new record id appears in the StructuredStore, and the
SimilarityIndex gains no entry.  But the call is *not* side-effect free on
the UPDATE path: the old-record retirement runs *before* validation and
embedding, so it still happens and is not rolled back; the call is a strict
no-op exactly when the first extracted candidate carries no resolvable
UPDATE marker — either no UPDATE marker at all, or one whose hint matches
no record of the 20-record resolution window. -/
theorem c1_abort_no_insert (sys : MemorySystem) (user_id text conv : Str)
    (resp : Option RawDecision) (ids : List Str) (now : Nat)
    (embOf : Str → Option (List Rat)) (e1 e2 e3 e4 : Bool)
    (hA : ∀ md ∈ OpenAIClient.extract_memories_from_text text resp, ∀ c,
      md.data.content = some c → c ≠ [] →
      embOf c = none ∨ embOf c = some []) :
    (sys.process_message user_id text conv resp ids now embOf
      e1 e2 e3 e4).2 = 0 ∧
    (∀ r ∈ (sys.process_message user_id text conv resp ids now embOf
        e1 e2 e3 e4).1.db_manager.rows,
      ∃ r0 ∈ sys.db_manager.rows, r0.id = r.id ∧ r0.user_id = r.user_id ∧
        r0.content = r.content) ∧
    (∀ en ∈ (sys.process_message user_id text conv resp ids now embOf
        e1 e2 e3 e4).1.vector_db.entries, en ∈ sys.vector_db.entries) ∧
    ((∀ md ∈ OpenAIClient.extract_memories_from_text text resp,
        md.action = some ("UPDATE".data) ∧ md.memory_to_replace ≠ [] →
        ∀ m ∈ sys.db_manager.get_user_memories user_id none (some 20),
          matchesHint md.memory_to_replace m = false) →
      sys.process_message user_id text conv resp ids now embOf e1 e2 e3 e4
        = (sys, 0)) := by
  have hrun := process_message_abort sys user_id text conv resp ids now
    embOf e1 e2 e3 e4 hA
  refine ⟨by rw [hrun], ?_, ?_, ?_⟩
  · rw [hrun]
    cases hext : OpenAIClient.extract_memories_from_text text resp with
    | nil =>
        simp only
        intro r hr
        exact ⟨r, hr, rfl, rfl, rfl⟩
    | cons md tl =>
        simp only
        by_cases hcond : md.action = some ("UPDATE".data) ∧
            md.memory_to_replace ≠ []
        · rw [if_pos hcond]
          exact delete_conflicting_rows sys user_id md.memory_to_replace e1 e2
        · rw [if_neg hcond]
          intro r hr
          exact ⟨r, hr, rfl, rfl, rfl⟩
  · rw [hrun]
    cases hext : OpenAIClient.extract_memories_from_text text resp with
    | nil =>
        simp only
        intro en hen
        exact hen
    | cons md tl =>
        simp only
        by_cases hcond : md.action = some ("UPDATE".data) ∧
            md.memory_to_replace ≠ []
        · rw [if_pos hcond]
          exact delete_conflicting_vec sys user_id md.memory_to_replace e1 e2
        · rw [if_neg hcond]
          intro en hen
          exact hen
  · intro hall
    rw [hrun]
    cases hext : OpenAIClient.extract_memories_from_text text resp with
    | nil => simp only
    | cons md tl =>
        have hmd : md ∈ OpenAIClient.extract_memories_from_text text resp := by
          rw [hext]; exact List.mem_cons_self _ _
        simp only
        by_cases hcond : md.action = some ("UPDATE".data) ∧
            md.memory_to_replace ≠ []
        · rw [if_pos hcond]
          rw [delete_conflicting_no_match sys user_id md.memory_to_replace
            e1 e2 (hall md hmd hcond)]
        · rw [if_neg hcond]

def c1sys : MemorySystem :=
  { db_manager := ⟨[mkRow ("m1".data) ("I use Notion".data) 1], []⟩,
    vector_db := ⟨[]⟩ }

/-- C1 counterexample: the decision is an UPDATE whose hint resolves to an
existing record, and embedding generation fails for every text; the claim
says the whole call aborts with zero side effects, but the old record is
already retired — a RetirementEvent row is appended and the record is
inactive — while nothing new is inserted. -/
theorem c1_counterexample :
    ((c1sys.process_message "u".data "t".data "c".data
        (some { action := some ("UPDATE".data),
                memory_to_replace := some ("Notion".data),
                new_memory := some { content := some ("I use Obsidian".data),
                                     category := some ("tools".data),
                                     confidence := some 1,
                                     tags := some [] } })
        ["n1".data] 10 (fun _ => none) false false false false).1.db_manager.rels =
      [⟨"m1".data, "deleted".data, "Replaced by new information".data⟩]) ∧
    ((c1sys.process_message "u".data "t".data "c".data
        (some { action := some ("UPDATE".data),
                memory_to_replace := some ("Notion".data),
                new_memory := some { content := some ("I use Obsidian".data),
                                     category := some ("tools".data),
                                     confidence := some 1,
                                     tags := some [] } })
        ["n1".data] 10 (fun _ => none) false false false false).2 = 0) := by
  decide

def c1wsys : MemorySystem :=
  { db_manager := ⟨[mkRow ("m1".data) ("I use Notion".data) 1], []⟩,
    vector_db := ⟨[]⟩ }

/-- C1 witness: two concrete aborted ingests that are strict no-ops — an
ADD whose candidate fails validation (empty content) while the embedder
works, and an UPDATE whose embedder fails and whose hint resolves to no
record of the 20-record window. -/
theorem c1_abort_no_insert_witness :
    c1wsys.process_message "u".data "t".data "c".data
        (some { action := some ("ADD".data), memory_to_replace := none,
                new_memory := some { content := some [],
                                     category := some ("tools".data),
                                     confidence := some 1,
                                     tags := some [] } })
        ["n1".data] 10 (fun _ => some [1]) false false false false
      = (c1wsys, 0) ∧
    c1wsys.process_message "u".data "t".data "c".data
        (some { action := some ("UPDATE".data),
                memory_to_replace := some ("zz".data),
                new_memory := some { content := some ("I use Obsidian".data),
                                     category := some ("tools".data),
                                     confidence := some 1,
                                     tags := some [] } })
        ["n1".data] 10 (fun _ => none) false false false false
      = (c1wsys, 0) :=
  ⟨(c1_abort_no_insert c1wsys "u".data "t".data "c".data
      (some { action := some ("ADD".data), memory_to_replace := none,
              new_memory := some { content := some [],
                                   category := some ("tools".data),
                                   confidence := some 1,
                                   tags := some [] } })
      ["n1".data] 10 (fun _ => some [1]) false false false false
      (by
        intro md hmd c hc hne
        rw [extract_add] at hmd
        rw [List.mem_singleton] at hmd
        subst hmd
        exact absurd (Option.some.inj hc).symm hne)).2.2.2 (by decide),
   (c1_abort_no_insert c1wsys "u".data "t".data "c".data
      (some { action := some ("UPDATE".data),
              memory_to_replace := some ("zz".data),
              new_memory := some { content := some ("I use Obsidian".data),
                                   category := some ("tools".data),
                                   confidence := some 1,
                                   tags := some [] } })
      ["n1".data] 10 (fun _ => none) false false false false
      (fun _ _ _ _ _ => Or.inl rfl)).2.2.2 (by decide)⟩
